import Mathlib

/-!
Formal model of the standalone tick-to-OHLC converter
(`examples/tick_to_ohlc.py`: class `TickToOHLCConverter` and its CLI driver
`main`).

Modelling conventions:
* Timestamps are modelled as natural numbers counting microseconds since the
  local midnight of an arbitrary day 0.  The script stores timestamps as
  ISO-8601 strings and sorts by them lexicographically; for the fixed-width
  format this coincides with chronological order, so the numeric model sorts
  identically.  `datetime` field arithmetic becomes:
  `dt.hour * 60 + dt.minute = t % usPerDay / usPerMinute`, and
  `dt.replace(hour=h, minute=m, second=0, microsecond=0)` becomes
  `t / usPerDay * usPerDay + (h * 60 + m) * usPerMinute`.
* Prices (Python floats) are modelled as rationals; traded quantities and
  volumes (non-negative integers) as natural numbers.
* Python `list.sort` / `sorted` are stable sorts; they are modelled by
  `List.insertionSort`, which is also stable.
* A `defaultdict` grouping preserves, for each key, the relative order of the
  grouped elements, so the group stored under a window key equals the
  `filter` of the tick list by that window, and `sorted(windows.keys())` is
  the ascending sort of the distinct window starts occurring in the data.
* A Python function that can raise an uncaught exception is modelled with an
  `Option` result (`none` = the exception propagates).
-/

namespace TickToOHLC

/-- One tick record as read from the JSONL input: the fields of a tick that
`TickToOHLCConverter` interprets (`timestamp`, `last_price`,
`last_traded_quantity`). -/
structure Tick where
  timestamp : Nat
  last_price : Rat
  last_traded_quantity : Nat
deriving DecidableEq

/-- The supported intervals: the keys of `TickToOHLCConverter.INTERVALS`
(`'minute'`, `'3minute'`, ..., `'60minute'`, `'day'`). -/
inductive Interval where
  | minute
  | minute3
  | minute5
  | minute10
  | minute15
  | minute30
  | minute60
  | day
deriving DecidableEq

/-- The values of `TickToOHLCConverter.INTERVALS`: the interval length in
minutes (`day` is `1440 = 24 * 60`). -/
def Interval.minutes : Interval → Nat
  | .minute => 1
  | .minute3 => 3
  | .minute5 => 5
  | .minute10 => 10
  | .minute15 => 15
  | .minute30 => 30
  | .minute60 => 60
  | .day => 1440

/-- Microseconds per minute. -/
def usPerMinute : Nat := 60000000

/-- Microseconds per day. -/
def usPerDay : Nat := 86400000000

/-- `TickToOHLCConverter.get_window_start`: round a timestamp down to the
nearest interval boundary.  For `day` this is midnight of the timestamp's
calendar day (`dt.replace(hour=0, minute=0, second=0, microsecond=0)`);
otherwise `minutes_since_midnight = dt.hour * 60 + dt.minute` is computed,
rounded down to a multiple of the interval length, and the result is the
timestamp's day at that minute with seconds and microseconds zeroed. -/
def get_window_start (interval : Interval) (t : Nat) : Nat :=
  if interval = .day then
    t / usPerDay * usPerDay
  else
    let minutes_since_midnight := t % usPerDay / usPerMinute
    let interval_periods := minutes_since_midnight / interval.minutes
    let aligned_minutes := interval_periods * interval.minutes
    t / usPerDay * usPerDay + aligned_minutes * usPerMinute

/-- C2: for every timestamp `t` and recognized interval, the window start lies
at or before `t` and `t` falls strictly before the window start plus the
interval length (half-open window), and a timestamp lying exactly on a
boundary is assigned to the window that starts at that boundary. -/
theorem get_window_start_half_open (interval : Interval) (t : Nat) :
    (get_window_start interval t ≤ t ∧
      t < get_window_start interval t + interval.minutes * usPerMinute) ∧
    (t % usPerDay % (interval.minutes * usPerMinute) = 0 →
      get_window_start interval t = t) := by
  cases interval <;>
    simp only [get_window_start, Interval.minutes, usPerMinute, usPerDay,
      reduceCtorEq, if_false, if_true, reduceIte] <;>
    omega

/-- Witness for C2: a concrete boundary timestamp (10:35:00.000000 on day 0,
with a 5-minute interval) is assigned to the window starting at itself, and a
concrete off-boundary timestamp (10:37:45.123456) lies at or after its window
start. -/
theorem get_window_start_half_open_witness :
    get_window_start Interval.minute5 38100000000 = 38100000000 ∧
    get_window_start Interval.minute5 38265123456 ≤ 38265123456 :=
  ⟨(get_window_start_half_open Interval.minute5 38100000000).2 (by decide),
    (get_window_start_half_open Interval.minute5 38265123456).1.1⟩

/-- Chronological comparison of ticks: the sort key
`lambda x: x['timestamp']` used by `load_tick_data` and
`calculate_ohlc_for_window`. -/
def tick_le (a b : Tick) : Prop := a.timestamp ≤ b.timestamp

instance : DecidableRel tick_le := fun a b => Nat.decLe a.timestamp b.timestamp

instance : IsTotal Tick tick_le := ⟨fun a b => Nat.le_total a.timestamp b.timestamp⟩

instance : IsTrans Tick tick_le := ⟨fun _ _ _ h h2 => Nat.le_trans h h2⟩

/-- In-memory effect of `TickToOHLCConverter.load_tick_data`: after reading,
the tick list is sorted chronologically
(`self.ticks.sort(key=lambda x: x['timestamp'])`, a stable sort). -/
def load_tick_data (ticks : List Tick) : List Tick :=
  List.insertionSort tick_le ticks

/-- The dict returned by `calculate_ohlc_for_window`
(`open`/`high`/`low`/`close`/`volume`). -/
structure OHLC where
  open_price : Rat
  high_price : Rat
  low_price : Rat
  close_price : Rat
  volume : Nat
deriving DecidableEq

/-- `TickToOHLCConverter.calculate_ohlc_for_window`: `None` on an empty group
(the sorted group is empty exactly when the group is); otherwise the group is
sorted by timestamp and the candle fields are the first tick's `last_price`
(open), the last tick's `last_price` (close), the max/min of `last_price`
(high/low), and the sum of `last_traded_quantity` (volume). -/
def calculate_ohlc_for_window (ticks_in_window : List Tick) : Option OHLC :=
  match List.insertionSort tick_le ticks_in_window with
  | [] => none
  | t :: ts =>
    some { open_price := t.last_price
           high_price := ts.foldl (fun m u => max m u.last_price) t.last_price
           low_price := ts.foldl (fun m u => min m u.last_price) t.last_price
           close_price := ((t :: ts).getLast (List.cons_ne_nil t ts)).last_price
           volume := ((t :: ts).map Tick.last_traded_quantity).sum }

/-- The running maximum (Python `max(...)` over a non-empty sequence, as a
left fold) dominates its starting value. -/
lemma le_foldl_max (l : List Tick) (a : Rat) :
    a ≤ l.foldl (fun m u => max m u.last_price) a := by
  induction l generalizing a with
  | nil => exact le_refl a
  | cons b bs ih => exact le_trans (le_max_left a b.last_price) (ih _)

/-- The running maximum dominates every element folded over. -/
lemma mem_le_foldl_max (l : List Tick) (a : Rat) (u : Tick) :
    u ∈ l → u.last_price ≤ l.foldl (fun m u => max m u.last_price) a := by
  induction l generalizing a with
  | nil => intro hu; cases hu
  | cons b bs ih =>
    intro hu
    rcases List.mem_cons.mp hu with h | h
    · subst h
      exact le_trans (le_max_right a u.last_price) (le_foldl_max bs _)
    · exact ih _ h

/-- The running maximum is either its starting value or the price of some
element folded over. -/
lemma foldl_max_cases (l : List Tick) (a : Rat) :
    l.foldl (fun m u => max m u.last_price) a = a ∨
      ∃ u ∈ l, l.foldl (fun m u => max m u.last_price) a = u.last_price := by
  induction l generalizing a with
  | nil => exact Or.inl rfl
  | cons b bs ih =>
    rcases ih (max a b.last_price) with h | ⟨u, hu, h⟩
    · rcases max_choice a b.last_price with hm | hm
      · exact Or.inl (by simpa [hm] using h)
      · exact Or.inr ⟨b, List.mem_cons_self b bs, by simpa [hm] using h⟩
    · exact Or.inr ⟨u, List.mem_cons_of_mem b hu, h⟩

/-- The running minimum (Python `min(...)` as a left fold) is below its
starting value. -/
lemma foldl_min_le (l : List Tick) (a : Rat) :
    l.foldl (fun m u => min m u.last_price) a ≤ a := by
  induction l generalizing a with
  | nil => exact le_refl a
  | cons b bs ih => exact le_trans (ih _) (min_le_left a b.last_price)

/-- The running minimum is below every element folded over. -/
lemma foldl_min_le_mem (l : List Tick) (a : Rat) (u : Tick) :
    u ∈ l → l.foldl (fun m u => min m u.last_price) a ≤ u.last_price := by
  induction l generalizing a with
  | nil => intro hu; cases hu
  | cons b bs ih =>
    intro hu
    rcases List.mem_cons.mp hu with h | h
    · subst h
      exact le_trans (foldl_min_le bs _) (min_le_right a u.last_price)
    · exact ih _ h

/-- The running minimum is either its starting value or the price of some
element folded over. -/
lemma foldl_min_cases (l : List Tick) (a : Rat) :
    l.foldl (fun m u => min m u.last_price) a = a ∨
      ∃ u ∈ l, l.foldl (fun m u => min m u.last_price) a = u.last_price := by
  induction l generalizing a with
  | nil => exact Or.inl rfl
  | cons b bs ih =>
    rcases ih (min a b.last_price) with h | ⟨u, hu, h⟩
    · rcases min_choice a b.last_price with hm | hm
      · exact Or.inl (by simpa [hm] using h)
      · exact Or.inr ⟨b, List.mem_cons_self b bs, by simpa [hm] using h⟩
    · exact Or.inr ⟨u, List.mem_cons_of_mem b hu, h⟩

/-- In a chronologically sorted group, the head is at or before every
element. -/
lemma sorted_head_le {t : Tick} {ts : List Tick}
    (h : (t :: ts).Sorted tick_le) :
    ∀ u ∈ t :: ts, t.timestamp ≤ u.timestamp := by
  intro u hu
  rcases List.mem_cons.mp hu with rfl | hu
  · exact le_refl _
  · exact (List.sorted_cons.mp h).1 u hu

/-- In a chronologically sorted group, every element is at or before the last
element. -/
lemma sorted_le_getLast {l : List Tick} (h : l.Sorted tick_le)
    (hne : l ≠ []) : ∀ u ∈ l, u.timestamp ≤ (l.getLast hne).timestamp := by
  induction l with
  | nil => cases hne rfl
  | cons t ts ih =>
    intro u hu
    cases ts with
    | nil =>
      rcases List.mem_cons.mp hu with rfl | hu
      · exact le_refl _
      · cases hu
    | cons t2 ts2 =>
      rw [List.getLast_cons (List.cons_ne_nil t2 ts2)]
      rcases List.mem_cons.mp hu with rfl | hu
      · exact (List.sorted_cons.mp h).1 _ (List.getLast_mem (List.cons_ne_nil t2 ts2))
      · exact ih (List.sorted_cons.mp h).2 (List.cons_ne_nil t2 ts2) u hu

/-- Full characterisation of `calculate_ohlc_for_window` on a non-empty
group: open/close come from chronologically extreme ticks, high/low are the
max/min of the prices, and volume is the sum of the traded quantities. -/
lemma calculate_ohlc_for_window_props (l : List Tick) (c : OHLC)
    (hc : calculate_ohlc_for_window l = some c) :
    (∃ f ∈ l, c.open_price = f.last_price ∧
      ∀ u ∈ l, f.timestamp ≤ u.timestamp) ∧
    (∃ g ∈ l, c.close_price = g.last_price ∧
      ∀ u ∈ l, u.timestamp ≤ g.timestamp) ∧
    ((∃ a ∈ l, c.high_price = a.last_price) ∧
      ∀ u ∈ l, u.last_price ≤ c.high_price) ∧
    ((∃ b ∈ l, c.low_price = b.last_price) ∧
      ∀ u ∈ l, c.low_price ≤ u.last_price) ∧
    c.volume = (l.map Tick.last_traded_quantity).sum := by
  have hperm : List.Perm (List.insertionSort tick_le l) l :=
    List.perm_insertionSort tick_le l
  have hsorted : (List.insertionSort tick_le l).Sorted tick_le :=
    List.sorted_insertionSort tick_le l
  unfold calculate_ohlc_for_window at hc
  cases hs : List.insertionSort tick_le l with
  | nil =>
    rw [hs] at hc
    cases hc
  | cons t ts =>
    rw [hs] at hc hperm hsorted
    injection hc with hc
    subst hc
    have hmem : ∀ u : Tick, u ∈ t :: ts ↔ u ∈ l := fun u => hperm.mem_iff
    refine ⟨⟨t, (hmem t).mp (List.mem_cons_self t ts), rfl, ?_⟩,
      ⟨(t :: ts).getLast (List.cons_ne_nil t ts),
        (hmem _).mp (List.getLast_mem _), rfl, ?_⟩, ⟨?_, ?_⟩, ⟨?_, ?_⟩, ?_⟩
    · intro u hu
      exact sorted_head_le hsorted u ((hmem u).mpr hu)
    · intro u hu
      exact sorted_le_getLast hsorted (List.cons_ne_nil t ts) u ((hmem u).mpr hu)
    · rcases foldl_max_cases ts t.last_price with h | ⟨u, hu, h⟩
      · exact ⟨t, (hmem t).mp (List.mem_cons_self t ts), h⟩
      · exact ⟨u, (hmem u).mp (List.mem_cons_of_mem t hu), h⟩
    · intro u hu
      rcases List.mem_cons.mp ((hmem u).mpr hu) with rfl | hu2
      · exact le_foldl_max ts u.last_price
      · exact mem_le_foldl_max ts t.last_price u hu2
    · rcases foldl_min_cases ts t.last_price with h | ⟨u, hu, h⟩
      · exact ⟨t, (hmem t).mp (List.mem_cons_self t ts), h⟩
      · exact ⟨u, (hmem u).mp (List.mem_cons_of_mem t hu), h⟩
    · intro u hu
      rcases List.mem_cons.mp ((hmem u).mpr hu) with rfl | hu2
      · exact foldl_min_le ts u.last_price
      · exact foldl_min_le_mem ts t.last_price u hu2
    · exact (hperm.map Tick.last_traded_quantity).sum_eq

/-- C1: for every non-empty tick group, the produced candle has open equal to
the `last_price` of a chronologically first tick of the group, close equal to
the `last_price` of a chronologically last tick, high/low equal to the
maximum/minimum `last_price` over the group, and volume equal to the sum of
`last_traded_quantity` over the group. -/
theorem ohlc_of_group_correct (l : List Tick) (c : OHLC)
    (hc : calculate_ohlc_for_window l = some c) :
    (∃ f ∈ l, c.open_price = f.last_price ∧
      ∀ u ∈ l, f.timestamp ≤ u.timestamp) ∧
    (∃ g ∈ l, c.close_price = g.last_price ∧
      ∀ u ∈ l, u.timestamp ≤ g.timestamp) ∧
    ((∃ a ∈ l, c.high_price = a.last_price) ∧
      ∀ u ∈ l, u.last_price ≤ c.high_price) ∧
    ((∃ b ∈ l, c.low_price = b.last_price) ∧
      ∀ u ∈ l, c.low_price ≤ u.last_price) ∧
    c.volume = (l.map Tick.last_traded_quantity).sum :=
  calculate_ohlc_for_window_props l c hc

/-- The two ticks of the spec scenario falling in the 10:39 one-minute window
(10:39:12 price 100 qty 5, then 10:39:50 price 102 qty 3), in microseconds
since midnight of day 0. -/
def w1ticks : List Tick := [⟨38352000000, 100, 5⟩, ⟨38390000000, 102, 3⟩]

/-- The candle the scenario expects for the 10:39 window. -/
def ohlc1 : OHLC := ⟨100, 102, 100, 102, 8⟩

/-- Witness for C1: the scenario group evaluates to the expected candle and
the characterisation holds there. -/
theorem ohlc_of_group_correct_witness :
    (∃ f ∈ w1ticks, ohlc1.open_price = f.last_price ∧
      ∀ u ∈ w1ticks, f.timestamp ≤ u.timestamp) ∧
    (∃ g ∈ w1ticks, ohlc1.close_price = g.last_price ∧
      ∀ u ∈ w1ticks, u.timestamp ≤ g.timestamp) ∧
    ((∃ a ∈ w1ticks, ohlc1.high_price = a.last_price) ∧
      ∀ u ∈ w1ticks, u.last_price ≤ ohlc1.high_price) ∧
    ((∃ b ∈ w1ticks, ohlc1.low_price = b.last_price) ∧
      ∀ u ∈ w1ticks, ohlc1.low_price ≤ u.last_price) ∧
    ohlc1.volume = (w1ticks.map Tick.last_traded_quantity).sum :=
  ohlc_of_group_correct w1ticks ohlc1 (by decide)

/-- One window's group in `group_ticks_by_window`: the `defaultdict` grouping
preserves the relative order of the ticks, so the list stored under window
start `w` is the sublist of the tick list whose window start is `w`. -/
def window_group (interval : Interval) (ticks : List Tick) (w : Nat) :
    List Tick :=
  ticks.filter (fun tick => decide (get_window_start interval tick.timestamp = w))

/-- The distinct window starts created by `group_ticks_by_window` (the key
set of the `windows` dict; key order is irrelevant because `convert_to_ohlc`
sorts the keys). -/
def window_keys (interval : Interval) (ticks : List Tick) : List Nat :=
  (ticks.map (fun tick => get_window_start interval tick.timestamp)).dedup

/-- One candle dict appended by `convert_to_ohlc`.  The `date` field holds
the window start (the script formats it as an ISO string with a fixed
`+05:30` suffix, which is injective in the window start, so the numeric
window start stands for the string); `oi` is always `None`. -/
structure Candle where
  date : Nat
  open_price : Rat
  high_price : Rat
  low_price : Rat
  close_price : Rat
  volume : Nat
  oi : Option Nat
deriving DecidableEq

/-- The candle emitted for one window start in the loop of
`convert_to_ohlc` (`None` when the group yields no OHLC dict). -/
def window_candle (interval : Interval) (ticks : List Tick)
    (window_time : Nat) : Option Candle :=
  (calculate_ohlc_for_window (window_group interval ticks window_time)).map
    (fun ohlc =>
      { date := window_time
        open_price := ohlc.open_price
        high_price := ohlc.high_price
        low_price := ohlc.low_price
        close_price := ohlc.close_price
        volume := ohlc.volume
        oi := none })

/-- `TickToOHLCConverter.convert_to_ohlc`, applied to the tick list held in
`self.ticks`: group the ticks by window, then iterate over the window starts
in ascending order (`for window_time in sorted(windows.keys())`) and emit the
candle of each group that produced one. -/
def convert_to_ohlc (interval : Interval) (ticks : List Tick) : List Candle :=
  (List.insertionSort (· ≤ ·) (window_keys interval ticks)).filterMap
    (window_candle interval ticks)

/-- The batch pipeline of `main`: `load_tick_data` (which sorts the ticks)
followed by `convert_to_ohlc`. -/
def aggregate (interval : Interval) (ticks : List Tick) : List Candle :=
  convert_to_ohlc interval (load_tick_data ticks)

/-- A window start is a key of the `windows` dict exactly when some tick of
the list falls in that window. -/
lemma mem_window_keys (interval : Interval) (ticks : List Tick) (w : Nat) :
    w ∈ window_keys interval ticks ↔
      ∃ t ∈ ticks, get_window_start interval t.timestamp = w := by
  simp [window_keys, List.mem_dedup, List.mem_map]

/-- A window's group is non-empty exactly when some tick falls in the
window. -/
lemma window_group_ne_nil (interval : Interval) (ticks : List Tick)
    (w : Nat) :
    window_group interval ticks w ≠ [] ↔
      ∃ t ∈ ticks, get_window_start interval t.timestamp = w := by
  unfold window_group
  rw [Ne, List.filter_eq_nil_iff]
  push_neg
  simp

/-- A non-empty group always yields an OHLC dict. -/
lemma calculate_ohlc_for_window_isSome (l : List Tick) (h : l ≠ []) :
    ∃ o, calculate_ohlc_for_window l = some o := by
  unfold calculate_ohlc_for_window
  cases hs : List.insertionSort tick_le l with
  | nil =>
    have := (List.perm_insertionSort tick_le l).length_eq
    rw [hs] at this
    cases l with
    | nil => cases h rfl
    | cons a as => simp at this
  | cons t ts => exact ⟨_, rfl⟩

/-- The candle emitted for a window carries that window start as its date. -/
lemma window_candle_date (interval : Interval) (ticks : List Tick)
    {w : Nat} {c : Candle} (hc : window_candle interval ticks w = some c) :
    c.date = w := by
  rcases Option.map_eq_some'.mp hc with ⟨o, _, rfl⟩
  rfl

/-- Over keys whose groups are non-empty, the emitted candles' dates list the
keys themselves. -/
lemma filterMap_window_candle_map_date (interval : Interval)
    (ticks : List Tick) (ks : List Nat)
    (h : ∀ w ∈ ks, window_group interval ticks w ≠ []) :
    ((ks.filterMap (window_candle interval ticks)).map Candle.date) = ks := by
  induction ks with
  | nil => rfl
  | cons k ks ih =>
    obtain ⟨o, ho⟩ :=
      calculate_ohlc_for_window_isSome _ (h k (List.mem_cons_self k ks))
    have hc : window_candle interval ticks k =
        some { date := k, open_price := o.open_price,
               high_price := o.high_price, low_price := o.low_price,
               close_price := o.close_price, volume := o.volume,
               oi := none } := by
      rw [window_candle, ho]
      rfl
    rw [List.filterMap_cons, hc, List.map_cons,
      ih (fun w hw => h w (List.mem_cons_of_mem k hw))]

/-- C6: the produced series is strictly increasing by window start (hence has
no duplicate window starts), and a window start appears among the candles
exactly when at least one input tick falls in that window: every candle comes
from a non-empty group, and a window with zero ticks produces no candle. -/
theorem aggregate_series_invariants (interval : Interval)
    (ticks : List Tick) :
    List.Pairwise (· < ·) ((aggregate interval ticks).map Candle.date) ∧
    ∀ w, (∃ c ∈ aggregate interval ticks, c.date = w) ↔
      ∃ t ∈ ticks, get_window_start interval t.timestamp = w := by
  have hload : List.Perm (load_tick_data ticks) ticks :=
    List.perm_insertionSort tick_le ticks
  have hkeys : ∀ w ∈ window_keys interval (load_tick_data ticks),
      window_group interval (load_tick_data ticks) w ≠ [] := by
    intro w hw
    exact (window_group_ne_nil _ _ _).mpr ((mem_window_keys _ _ _).mp hw)
  have hmap : ((aggregate interval ticks).map Candle.date) =
      List.insertionSort (· ≤ ·)
        (window_keys interval (load_tick_data ticks)) := by
    unfold aggregate convert_to_ohlc
    exact filterMap_window_candle_map_date _ _ _
      (fun w hw => hkeys w
        ((List.perm_insertionSort (· ≤ ·) _).mem_iff.mp hw))
  have hperm_keys : List.Perm
      (List.insertionSort (· ≤ ·) (window_keys interval (load_tick_data ticks)))
      (window_keys interval (load_tick_data ticks)) :=
    List.perm_insertionSort (· ≤ ·) _
  constructor
  · rw [hmap]
    have hsorted : (List.insertionSort (· ≤ ·)
        (window_keys interval (load_tick_data ticks))).Sorted (· ≤ ·) :=
      List.sorted_insertionSort (· ≤ ·) _
    have hnodup : (List.insertionSort (· ≤ ·)
        (window_keys interval (load_tick_data ticks))).Nodup :=
      hperm_keys.nodup_iff.mpr (List.nodup_dedup _)
    exact (hsorted.and hnodup).imp (fun h => lt_of_le_of_ne h.1 h.2)
  · intro w
    have h1 : (∃ c ∈ aggregate interval ticks, c.date = w) ↔
        w ∈ ((aggregate interval ticks).map Candle.date) := by
      simp [List.mem_map]
    rw [h1, hmap, hperm_keys.mem_iff, mem_window_keys]
    constructor
    · rintro ⟨t, ht, rfl⟩
      exact ⟨t, hload.mem_iff.mp ht, rfl⟩
    · rintro ⟨t, ht, rfl⟩
      exact ⟨t, hload.mem_iff.mpr ht, rfl⟩

/-- Every candle of the produced series comes from some window key whose
group yields it. -/
lemma mem_aggregate (interval : Interval) (ticks : List Tick) (c : Candle)
    (hc : c ∈ aggregate interval ticks) :
    ∃ w o, calculate_ohlc_for_window
        (window_group interval (load_tick_data ticks) w) = some o ∧
      c = { date := w, open_price := o.open_price, high_price := o.high_price,
            low_price := o.low_price, close_price := o.close_price,
            volume := o.volume, oi := none } := by
  unfold aggregate convert_to_ohlc at hc
  rcases List.mem_filterMap.mp hc with ⟨w, _, hw⟩
  rcases Option.map_eq_some'.mp hw with ⟨o, ho, rfl⟩
  exact ⟨w, o, ho, rfl⟩

/-- C7: every candle produced by aggregation satisfies
`low ≤ min(open, close)` and `high ≥ max(open, close)`. -/
theorem candle_low_high_invariant (interval : Interval) (ticks : List Tick)
    (c : Candle) (hc : c ∈ aggregate interval ticks) :
    c.low_price ≤ min c.open_price c.close_price ∧
    max c.open_price c.close_price ≤ c.high_price := by
  rcases mem_aggregate interval ticks c hc with ⟨w, o, ho, rfl⟩
  rcases calculate_ohlc_for_window_props _ _ ho with
    ⟨⟨f, hf, hfo, _⟩, ⟨g, hg, hgo, _⟩, ⟨_, hhigh⟩, ⟨_, hlow⟩, _⟩
  dsimp only
  rw [hfo, hgo]
  exact ⟨le_min (hlow f hf) (hlow g hg), max_le (hhigh f hf) (hhigh g hg)⟩

/-- The candle the spec scenario expects for the 10:39 one-minute window. -/
def candle1039 : Candle := ⟨38340000000, 100, 102, 100, 102, 8, none⟩

/-- Witness for C7: the 10:39 scenario candle is produced by aggregation and
satisfies the invariant. -/
theorem candle_low_high_invariant_witness :
    candle1039.low_price ≤ min candle1039.open_price candle1039.close_price ∧
    max candle1039.open_price candle1039.close_price ≤
      candle1039.high_price :=
  candle_low_high_invariant Interval.minute w1ticks candle1039 (by decide)

/-- Strict chronological comparison of ticks. -/
def tick_lt (a b : Tick) : Prop := a.timestamp < b.timestamp

instance : IsAntisymm Tick tick_lt :=
  ⟨fun _ _ h h2 => absurd h2 (Nat.lt_asymm h)⟩

/-- When no two ticks share a timestamp, sorting by timestamp is
order-independent: any two permutations of the tick multiset load to the same
sorted list. -/
lemma load_tick_data_eq_of_perm (l1 l2 : List Tick)
    (hp : List.Perm l1 l2) (hn : (l1.map Tick.timestamp).Nodup) :
    load_tick_data l1 = load_tick_data l2 := by
  have hperm : List.Perm (load_tick_data l1) (load_tick_data l2) :=
    (List.perm_insertionSort tick_le l1).trans
      (hp.trans (List.perm_insertionSort tick_le l2).symm)
  have hstrict : ∀ l : List Tick, (l.map Tick.timestamp).Nodup →
      l.Sorted tick_le → l.Sorted tick_lt := by
    intro l hnd hs
    have hne : l.Pairwise (fun a b : Tick => a.timestamp ≠ b.timestamp) :=
      List.pairwise_map.mp hnd
    exact (hs.and hne).imp (fun h => Nat.lt_of_le_of_ne h.1 h.2)
  have hn1 : ((load_tick_data l1).map Tick.timestamp).Nodup :=
    (((List.perm_insertionSort tick_le l1).map Tick.timestamp).nodup_iff).mpr hn
  have hn2 : ((load_tick_data l2).map Tick.timestamp).Nodup :=
    (((List.perm_insertionSort tick_le l2).map Tick.timestamp).nodup_iff).mpr
      ((hp.map Tick.timestamp).nodup_iff.mp hn)
  exact List.eq_of_perm_of_sorted hperm
    (hstrict _ hn1 (List.sorted_insertionSort tick_le l1))
    (hstrict _ hn2 (List.sorted_insertionSort tick_le l2))

/-- Two ticks sharing the 10:39 one-minute window and the same timestamp but
carrying different prices. -/
def dupA : Tick := ⟨38352000000, 100, 5⟩

/-- Second tick with the same timestamp as `dupA` but a different price. -/
def dupB : Tick := ⟨38352000000, 102, 3⟩

/-- Counterexample to C3 as stated: the two input orders of the same tick set
`{dupA, dupB}` (two ticks with equal timestamps and different prices) produce
different candle series, because the stable sort keeps the input order of
equal timestamps and open/close follow it. -/
theorem aggregate_order_dependent_counterexample :
    List.Perm [dupA, dupB] [dupB, dupA] ∧
    aggregate Interval.minute [dupA, dupB] ≠
      aggregate Interval.minute [dupB, dupA] :=
  ⟨List.Perm.swap dupB dupA [], by decide⟩

/-- C3 (amended): batch aggregation is order-independent for tick sets in
which no two ticks share a timestamp: any two input orders of such a tick
multiset yield an identical candle series. -/
theorem aggregate_order_independent (interval : Interval)
    (l1 l2 : List Tick) (hp : List.Perm l1 l2)
    (hn : (l1.map Tick.timestamp).Nodup) :
    aggregate interval l1 = aggregate interval l2 := by
  unfold aggregate
  rw [load_tick_data_eq_of_perm l1 l2 hp hn]

/-- Witness for C3 (amended): the two orders of a two-tick set with distinct
timestamps aggregate identically. -/
theorem aggregate_order_independent_witness :
    aggregate Interval.minute
        [(⟨38352000000, 100, 5⟩ : Tick), (⟨38390000000, 102, 3⟩ : Tick)] =
      aggregate Interval.minute
        [(⟨38390000000, 102, 3⟩ : Tick), (⟨38352000000, 100, 5⟩ : Tick)] :=
  aggregate_order_independent Interval.minute _ _
    (List.Perm.swap _ _ []) (by decide)

/-- Exact equality of the four price fields of a compared pair
(`ohlc_match` in `verify_against_historical`). -/
def ohlc_match (hist gen : Candle) : Prop :=
  hist.open_price = gen.open_price ∧ hist.high_price = gen.high_price ∧
    hist.low_price = gen.low_price ∧ hist.close_price = gen.close_price

instance (hist gen : Candle) : Decidable (ohlc_match hist gen) :=
  inferInstanceAs (Decidable (hist.open_price = gen.open_price ∧
    hist.high_price = gen.high_price ∧ hist.low_price = gen.low_price ∧
    hist.close_price = gen.close_price))

/-- `volume_diff_pct` in `verify_against_historical`:
`abs(hist['volume'] - gen['volume']) / hist['volume'] * 100 if
hist['volume'] > 0 else 0`. -/
def volume_diff_pct (hist gen : Candle) : Rat :=
  if hist.volume > 0 then
    |(hist.volume : Rat) - (gen.volume : Rat)| / (hist.volume : Rat) * 100
  else 0

/-- `volume_match` in `verify_against_historical`:
`volume_diff_pct <= tolerance_pct`. -/
def volume_match (tolerance_pct : Rat) (hist gen : Candle) : Prop :=
  volume_diff_pct hist gen ≤ tolerance_pct

instance (tolerance_pct : Rat) (hist gen : Candle) :
    Decidable (volume_match tolerance_pct hist gen) :=
  inferInstanceAs (Decidable (volume_diff_pct hist gen ≤ tolerance_pct))

/-- One compared pair counts as a match (the `matches` counter is
incremented) iff the dates are equal (otherwise the pair short-circuits as a
timestamp mismatch), the OHLC prices are exactly equal, and the volume is
within tolerance. -/
def candle_pair_matches (tolerance_pct : Rat) (hist gen : Candle) : Prop :=
  hist.date = gen.date ∧ ohlc_match hist gen ∧
    volume_match tolerance_pct hist gen

instance (tolerance_pct : Rat) (hist gen : Candle) :
    Decidable (candle_pair_matches tolerance_pct hist gen) :=
  inferInstanceAs (Decidable (hist.date = gen.date ∧ ohlc_match hist gen ∧
    volume_match tolerance_pct hist gen))

/-- C4: for a positionally compared pair with equal window starts and exactly
equal open/high/low/close, the pair matches iff
`|hist.volume - gen.volume| / hist.volume * 100 ≤ tolerance_pct`, with the
volume check satisfied unconditionally when the reference volume is zero
(the tolerance, a percentage, is non-negative). -/
theorem verifier_volume_tolerance (tolerance_pct : Rat) (hist gen : Candle)
    (htol : 0 ≤ tolerance_pct) (hdate : hist.date = gen.date)
    (hohlc : ohlc_match hist gen) :
    candle_pair_matches tolerance_pct hist gen ↔
      (hist.volume = 0 ∨
        |(hist.volume : Rat) - (gen.volume : Rat)| / (hist.volume : Rat) *
          100 ≤ tolerance_pct) := by
  unfold candle_pair_matches volume_match volume_diff_pct
  rcases Nat.eq_zero_or_pos hist.volume with h0 | hpos
  · simp [h0, htol, hdate, hohlc]
  · simp [hdate, hohlc, hpos, Nat.pos_iff_ne_zero.mp hpos]

/-- The reference candle of the spec tolerance scenario (volume 1000). -/
def histC : Candle := ⟨0, 100, 100, 100, 100, 1000, none⟩

/-- Generated candle with volume 1009 (0.9% off the reference). -/
def genC1009 : Candle := ⟨0, 100, 100, 100, 100, 1009, none⟩

/-- Generated candle with volume 1011 (1.1% off the reference). -/
def genC1011 : Candle := ⟨0, 100, 100, 100, 100, 1011, none⟩

/-- Witness for C4: with reference volume 1000 and tolerance 1.0%, generated
volume 1009 matches and generated volume 1011 mismatches. -/
theorem verifier_volume_tolerance_witness :
    candle_pair_matches 1 histC genC1009 ∧
      ¬ candle_pair_matches 1 histC genC1011 := by
  constructor
  · exact (verifier_volume_tolerance 1 histC genC1009 (by norm_num) rfl
      ⟨rfl, rfl, rfl, rfl⟩).mpr (Or.inr (by norm_num [histC, genC1009]))
  · intro hmatch
    rcases (verifier_volume_tolerance 1 histC genC1011 (by norm_num) rfl
        ⟨rfl, rfl, rfl, rfl⟩).mp hmatch with h | h
    · exact absurd h (by norm_num [histC])
    · exact absurd h (by norm_num [histC, genC1011])

/-- The verification report assembled by `verify_against_historical`: total
compared (`min` of the lengths), the match counter, the length of the
mismatch list (each compared pair appends exactly one line when it fails),
the printed match rate, and the returned boolean verdict
(`matches == min(len(historical), len(generated))`). -/
structure VerificationReport where
  total_compared : Nat
  matched : Nat
  mismatch_count : Nat
  match_rate : Rat
  all_matched : Bool

/-- `TickToOHLCConverter.verify_against_historical` on already-loaded candle
lists: the candles are walked pairwise by position (`zip`), each pair either
increments `matches` or records a mismatch, and the match rate
`matches / min(len(historical), len(generated)) * 100` is computed before
returning.  When the minimum length is zero that division raises an uncaught
`ZeroDivisionError`, modelled as `none`. -/
def verify_against_historical (tolerance_pct : Rat)
    (historical_candles generated_candles : List Candle) :
    Option VerificationReport :=
  let pairs := historical_candles.zip generated_candles
  let matched := pairs.countP
    (fun p => decide (candle_pair_matches tolerance_pct p.1 p.2))
  let compared := min historical_candles.length generated_candles.length
  if compared = 0 then none
  else
    some { total_compared := compared
           matched := matched
           mismatch_count := compared - matched
           match_rate := (matched : Rat) / (compared : Rat) * 100
           all_matched := decide (matched = compared) }

/-- C9: the verifier fails to return a report (its match-rate computation
divides by zero) exactly when the reference series or the generated series is
empty; it is total under the precondition that both are non-empty. -/
theorem verifier_requires_nonempty (tolerance_pct : Rat)
    (historical_candles generated_candles : List Candle) :
    verify_against_historical tolerance_pct historical_candles
        generated_candles = none ↔
      (historical_candles = [] ∨ generated_candles = []) := by
  have hmin : min historical_candles.length generated_candles.length = 0 ↔
      (historical_candles = [] ∨ generated_candles = []) := by
    rw [Nat.min_eq_zero_iff, List.length_eq_zero, List.length_eq_zero]
  by_cases h : min historical_candles.length generated_candles.length = 0 <;>
    simp [verify_against_historical, h, ← hmin]

/-- C10: the verifier's boolean verdict is true iff every positionally
compared pair (up to the shorter length) matches; a length mismatch alone
never falsifies the verdict. -/
theorem verifier_verdict_iff_all_pairs (tolerance_pct : Rat)
    (historical_candles generated_candles : List Candle)
    (r : VerificationReport)
    (hr : verify_against_historical tolerance_pct historical_candles
        generated_candles = some r) :
    r.all_matched = true ↔
      ∀ p ∈ historical_candles.zip generated_candles,
        candle_pair_matches tolerance_pct p.1 p.2 := by
  unfold verify_against_historical at hr
  by_cases h : min historical_candles.length generated_candles.length = 0
  · rw [if_pos h] at hr
    cases hr
  · rw [if_neg h] at hr
    injection hr with hr
    subst hr
    dsimp only
    rw [decide_eq_true_eq, ← List.length_zip, List.countP_eq_length]
    simp

/-- Reference-style candle for the C10 witness (volume 0, so the volume check
is trivially satisfied). -/
def cA : Candle := ⟨0, 100, 100, 100, 100, 0, none⟩

/-- Extra candle present only in the longer reference series. -/
def cB : Candle := ⟨60000000, 101, 101, 101, 101, 0, none⟩

/-- Witness for C10: with a reference series of length 2 and a generated
series of length 1 whose single compared pair matches, the verdict is still
true despite the length mismatch. -/
theorem verifier_verdict_iff_all_pairs_witness :
    (verify_against_historical 1 [cA, cB] [cA]).map
        VerificationReport.all_matched = some true ∧
      ([cA, cB] : List Candle).length ≠ ([cA] : List Candle).length := by
  have hr : verify_against_historical 1 [cA, cB] [cA] =
      some { total_compared := 1, matched := 1, mismatch_count := 0,
             match_rate := ((1 : Nat) : Rat) / ((1 : Nat) : Rat) * 100,
             all_matched := true } := rfl
  have hall :=
    (verifier_verdict_iff_all_pairs 1 [cA, cB] [cA] _ hr).mpr (by decide)
  exact ⟨(congrArg (Option.map VerificationReport.all_matched) hr).trans
    (congrArg some hall), by decide⟩

/-- The output envelope built by `create_output_json`.  The script re-parses
the first and last candle's date strings and re-formats them for
`from_dt`/`to_dt`; both round-trips are injective in the window start, so the
fields are modelled by the window-start values themselves (`none` = JSON
`null`). -/
structure OutputJson where
  instrument_token : Int
  interval : Interval
  from_dt : Option Nat
  to_dt : Option Nat
  continuous : Bool
  oi : Bool
  data : List Candle
  count : Nat
deriving DecidableEq

/-- `TickToOHLCConverter.create_output_json` on the stored candle list: for
an empty list a fixed empty envelope with `null` bounds, otherwise the bounds
come from the first and last candle and `count` is the number of candles. -/
def create_output_json (interval : Interval) (instrument_token : Int)
    (ohlc_candles : List Candle) : OutputJson :=
  match ohlc_candles with
  | [] =>
    { instrument_token := instrument_token, interval := interval,
      from_dt := none, to_dt := none, continuous := false, oi := false,
      data := [], count := 0 }
  | c :: cs =>
    { instrument_token := instrument_token, interval := interval,
      from_dt := some c.date,
      to_dt := some (((c :: cs).getLast (List.cons_ne_nil c cs)).date),
      continuous := false, oi := false, data := c :: cs,
      count := (c :: cs).length }

/-- C8: an empty tick set produces zero candles, and building the output
envelope for it succeeds and yields count 0, an empty data list, and null
`from_dt`/`to_dt`. -/
theorem create_output_json_empty (interval : Interval)
    (instrument_token : Int) :
    create_output_json interval instrument_token
        (convert_to_ohlc interval (load_tick_data [])) =
      { instrument_token := instrument_token, interval := interval,
        from_dt := none, to_dt := none, continuous := false, oi := false,
        data := [], count := 0 } := rfl

/-- Exit-status model of the script's `main` after argument parsing and a
successful read of the tick file.  `main` returns `None` on every
non-raising path — including the path where verification was requested and
returned `False` (it only prints a warning) — so the interpreter exits 0
there; the only non-zero exits come from uncaught exceptions (modelled here:
the verifier's `ZeroDivisionError`).  Writing the output file is I/O and
cannot change a successful run's exit code, so `save_to_file` is not
modelled. -/
def run_main (interval : Interval) (instrument_token : Int)
    (ticks : List Tick) (verify : Option (List Candle))
    (tolerance : Rat) : Nat :=
  if (load_tick_data ticks).length = 0 then 0
  else if convert_to_ohlc interval (load_tick_data ticks) = [] then 0
  else
    let _output_data := create_output_json interval instrument_token
      (convert_to_ohlc interval (load_tick_data ticks))
    match verify with
    | none => 0
    | some historical_candles =>
      match verify_against_historical tolerance historical_candles
          (convert_to_ohlc interval (load_tick_data ticks)) with
      | none => 1
      | some _ => 0

/-- Reference candle differing from the generated 10:39 candle in its open
price (its volume is 0, which the volume check accepts unconditionally). -/
def cRef : Candle := ⟨38340000000, 999, 102, 100, 102, 0, none⟩

/-- Counterexample to C5 as stated: a run in which verification was requested
and the verdict is negative (the single compared pair mismatches), yet the
driver exits 0. -/
theorem main_exit_code_counterexample :
    (verify_against_historical 1 [cRef]
        (convert_to_ohlc Interval.minute (load_tick_data w1ticks))).map
      VerificationReport.all_matched = some false ∧
    run_main Interval.minute 1510401 w1ticks (some [cRef]) 1 = 0 :=
  ⟨by decide, by decide⟩

/-- C5 (amended): when verification is requested and the verifier completes
with a verdict (even a negative one), the driver exits 0; a negative
verification verdict never produces a non-zero exit code.  Non-zero exits
arise only from uncaught exceptions. -/
theorem main_exit_zero_on_verdict (interval : Interval)
    (instrument_token : Int) (ticks : List Tick)
    (historical_candles : List Candle) (tolerance : Rat)
    (hsome : (verify_against_historical tolerance historical_candles
        (convert_to_ohlc interval (load_tick_data ticks))).isSome = true) :
    run_main interval instrument_token ticks (some historical_candles)
      tolerance = 0 := by
  obtain ⟨r, hr⟩ := Option.isSome_iff_exists.mp hsome
  unfold run_main
  dsimp only
  rw [hr]
  by_cases h0 : (load_tick_data ticks).length = 0
  · rw [if_pos h0]
  · rw [if_neg h0]
    by_cases h1 : convert_to_ohlc interval (load_tick_data ticks) = []
    · rw [if_pos h1]
    · rw [if_neg h1]

/-- Witness for C5 (amended): a concrete run with a negative verdict exits
with code 0. -/
theorem main_exit_zero_on_verdict_witness :
    run_main Interval.minute 1510401 w1ticks (some [cRef]) 1 = 0 :=
  main_exit_zero_on_verdict Interval.minute 1510401 w1ticks [cRef] 1
    (by decide)

end TickToOHLC
